import Mathlib

/-!
Verification of the object-name resolution engine of `vhdl_lang`
(`src/vhdl_lang/src/analysis/names.rs`): a shallow embedding of
`ResolvedName`, its suffix-transition function `with_suffix`, and the
recursive walker `resolve_object_prefix`, together with theorems about
their behaviour.

Modelling conventions:
- Entities are immutable records carrying an integer handle `id`, a declared
  `kind` and an alias-resolved `actual_kind` (the source reads both through
  `ent.kind()` / `ent.actual_kind()`).
- `TypeEnt` and `ObjectEnt` are entity handles (`Nat`).
- Positions are `Nat`; a diagnostic is a position plus a message string.
- The scope and the analysis collaborators (`lookup`, `lookup_selected`,
  `lookup_type_selected`, `analyze_indexed_name`, `analyze_expression`,
  `analyze_sliced_name`, `analyze_discrete_range`,
  `resolve_subtype_indication`) live outside this component; they are fields
  of a context record `Ctx`, arbitrary functions returning an `Except`
  result and the list of diagnostics they push into the sink.
- The diagnostics sink (`&mut dyn DiagnosticHandler`) is threaded as a
  `List Diagnostic` to which every emission appends.
- The cross-reference cells mutated on the `Name` AST are `Option Nat`
  fields of the designator slots; the walker returns the updated `Name`.
- Rust panics (`debug_assert!`, `unreachable!`) are a third outcome
  (`panicked`) next to `Ok`/`Err`; `debug_assert!` fires only when the
  build-configuration flag `debug_assertions` is set.
-/

namespace VhdlNames

/-- Source position (models `SrcPos`; position bookkeeping itself is out of
scope, only identity of positions matters). -/
abbrev Pos := Nat

/-- A diagnostic at a position (models `Diagnostic::error(pos, msg)`). -/
structure Diagnostic where
  pos : Pos
  message : String
deriving DecidableEq

/-- Handle of an entity statically known to be a type (models `TypeEnt`). -/
abbrev TypeEnt := Nat

/-- Handle of an entity statically known to be an object (models `ObjectEnt`). -/
abbrev ObjectEnt := Nat

/-- A subtype indication; the resolver only ever reads `subtype.type_mark()`. -/
structure Subtype where
  type_mark : TypeEnt
deriving DecidableEq

/-- The declaration kinds `names.rs` distinguishes (models `NamedEntityKind`
restricted to the closed set the resolver matches on; everything else is
`other`). -/
inductive NamedEntityKind where
  | object (subtype : Subtype)
  | objectAlias (base_object : ObjectEnt) (type_mark : TypeEnt)
  | typeKind
  | elementDeclaration (subtype : Subtype)
  | overloadedKind
  | other
deriving DecidableEq

/-- An immutable declaration record (models `Arc<NamedEntity>`): a handle,
the declared kind (`ent.kind()`) and the alias-resolved kind
(`ent.actual_kind()`; the two differ precisely for aliases). -/
structure NamedEntity where
  id : Nat
  kind : NamedEntityKind
  actual_kind : NamedEntityKind
deriving DecidableEq

/-- An overload set: the handles of the candidate entities (models
`OverloadedName`; never disambiguated by this component). -/
abbrev OverloadedName := List Nat

/-- The object class of an external name (models `ExternalObjectClass`). -/
inductive ExternalObjectClass where
  | constant
  | signal
  | variableClass
deriving DecidableEq

/-- The result of resolving a name prefix so far (models `ResolvedName`). -/
inductive ResolvedName where
  | nonObject (ent : NamedEntity)
  | typeName (typ : TypeEnt)
  | overloaded (ov : OverloadedName)
  | objectSelection (base_object : ObjectEnt) (type_mark : TypeEnt)
  | externalName (objClass : ExternalObjectClass) (type_mark : TypeEnt)
deriving DecidableEq

/-- `TypeEnt::from_any`: succeeds exactly when the entity's declared kind is
a type, otherwise hands the entity back. -/
def TypeEnt.from_any (ent : NamedEntity) : Except NamedEntity TypeEnt :=
  match ent.kind with
  | .typeKind => .ok ent.id
  | _ => .error ent

/-- `ResolvedName::new`: initial classification of a single entity.
`Object` seeds an `ObjectSelection` with the entity itself as base and its
declared subtype's type mark; `ObjectAlias` seeds it with the alias's stored
base object and stored type mark; `Type` becomes `Type` (the
`TypeEnt::from_any(..).unwrap()` in the source cannot fail there: the kind
is a type); everything else becomes `NonObject`. -/
def ResolvedName.new (ent : NamedEntity) : ResolvedName :=
  match ent.kind with
  | .object subtype => .objectSelection ent.id subtype.type_mark
  | .objectAlias base_object type_mark => .objectSelection base_object type_mark
  | .typeKind => .typeName ent.id
  | _ => .nonObject ent

/-- Whether a resolved name is the `NonObject` state (the shape tested by
the `debug_assert!(matches!(self, Self::NonObject(_)))` in the source). -/
def ResolvedName.isNonObject : ResolvedName → Bool
  | .nonObject _ => true
  | _ => false

/-- Message of the `debug_assert!` in `with_suffix`. -/
def assertMsg : String := "assertion failed: self is NonObject"

/-- Message of the `unreachable!` in `with_suffix`. -/
def unreachableMsg : String := "Overloaded suffix of overloaded name"

/-- Outcome of the suffix transition: `Ok`, a recoverable error message, or
a Rust panic. -/
inductive SuffixResult where
  | ok (r : ResolvedName)
  | err (msg : String)
  | panicked (msg : String)
deriving DecidableEq

/-- `ResolvedName::with_suffix`: the suffix transition function. `dbg` is
the build configuration's debug-assertions flag: `debug_assert!` panics
exactly when it is set, and otherwise the branch falls through to
`ResolvedName::new`. -/
def ResolvedName.with_suffix (dbg : Bool) (self : ResolvedName) (ent : NamedEntity) :
    SuffixResult :=
  match ent.kind with
  | .object _ =>
    if dbg && !self.isNonObject then .panicked assertMsg
    else .ok (ResolvedName.new ent)
  | .objectAlias _ _ =>
    if dbg && !self.isNonObject then .panicked assertMsg
    else .ok (ResolvedName.new ent)
  | _ =>
    match self with
    | .nonObject _ =>
      .ok (match TypeEnt.from_any ent with
        | .ok typ => .typeName typ
        | .error e => .nonObject e)
    | .typeName _ => .err "Type may not be the prefix of a selected name"
    | .objectSelection base_object _ =>
      match ent.actual_kind with
      | .elementDeclaration subtype => .ok (.objectSelection base_object subtype.type_mark)
      | _ => .ok (.nonObject ent)
    | .externalName objClass _ =>
      match ent.actual_kind with
      | .elementDeclaration subtype => .ok (.externalName objClass subtype.type_mark)
      | _ => .ok (.nonObject ent)
    | .overloaded _ => .panicked unreachableMsg

/-- An expression; opaque to the resolver (only handed to collaborators). -/
abbrev Expression := Nat

/-- A discrete range; opaque to the resolver. -/
abbrev DiscreteRange := Nat

/-- A subtype indication AST node; opaque to the resolver. -/
abbrev SubtypeIndication := Nat

/-- Payload of an attribute name; opaque (the source never recurses into it). -/
abbrev AttributeData := Nat

/-- A designator; opaque to the resolver (only used as a lookup key). -/
abbrev Designator := Nat

/-- A designator slot with its position and cross-reference cell (models
`WithPos<WithRef<Designator>>`; `clear_reference` writes `none`,
`set_unique_reference` writes the entity's handle). -/
structure SuffixDes where
  des : Designator
  pos : Pos
  reference : Option Nat
deriving DecidableEq

/-- The name AST (models `Name`). Prefixes carry their own position
(`WithPos`); `functionCall` keeps its parameter associations as
optional-formal/actual pairs. -/
inductive Name where
  | selected (prefixPos : Pos) (pfx : Name) (suffix : SuffixDes)
  | selectedAll (prefixPos : Pos) (pfx : Name)
  | designator (des : SuffixDes)
  | indexed (prefixPos : Pos) (pfx : Name) (indexes : List Expression)
  | slice (prefixPos : Pos) (pfx : Name) (drange : DiscreteRange)
  | attributeName (attr : AttributeData)
  | functionCall (prefixPos : Pos) (pfx : Name) (params : List (Option Nat × Expression))
  | external (subtype : SubtypeIndication) (objClass : ExternalObjectClass)
deriving DecidableEq

/-- Result of a scope lookup (models `NamedEntities`). -/
inductive NamedEntities where
  | single (ent : NamedEntity)
  | overloaded (ov : OverloadedName)
deriving DecidableEq

/-- The scope and the analysis collaborators consumed by the walker,
together with the build configuration. Each collaborator that takes the
diagnostics sink returns the list of diagnostics it pushes alongside its
`Except` result. -/
structure Ctx where
  debug_assertions : Bool
  lookup : Pos → Designator → Except Diagnostic NamedEntities
  lookup_selected : Pos → NamedEntity → Pos → Designator → Except Diagnostic NamedEntities
  lookup_type_selected : Pos → TypeEnt → Pos → Designator → Except Diagnostic NamedEntities
  analyze_indexed_name : Pos → Pos → TypeEnt → List Expression →
    Except Diagnostic TypeEnt × List Diagnostic
  analyze_expression : Expression → Except Diagnostic Unit × List Diagnostic
  analyze_sliced_name : Pos → TypeEnt → Except Diagnostic Unit × List Diagnostic
  analyze_discrete_range : DiscreteRange → Except Diagnostic Unit × List Diagnostic
  resolve_subtype_indication : SubtypeIndication → Except Diagnostic Subtype × List Diagnostic

/-- Outcome of the walker: `Ok(ResolvedName)`, `Err(diagnostic)`, or a
propagated panic. -/
inductive ROutcome where
  | ok (r : ResolvedName)
  | err (d : Diagnostic)
  | panicked (msg : String)
deriving DecidableEq

/-- Modelled from the spec: `WithPos::<Name>::suffix_pos` is not under
`src/`; it only feeds position arguments to the index/slice collaborators
(position bookkeeping is out of scope per §1). We model it as the suffix
designator's position when the name has one, else the name's own position. -/
def Name.suffix_pos (pos : Pos) : Name → Pos
  | .selected _ _ suffix => suffix.pos
  | _ => pos

/-- The `for expr in indexes { self.analyze_expression(..)?; }` loop of the
`Indexed` fallback arm: analyze the index expressions in order, appending
their diagnostics to the sink, stopping at the first failing analysis. -/
def analyzeIndexExprs (ctx : Ctx) (exprs : List Expression) (diags : List Diagnostic) :
    Except Diagnostic Unit × List Diagnostic :=
  match exprs with
  | [] => (.ok (), diags)
  | e :: rest =>
    match ctx.analyze_expression e with
    | (.error er, dd) => (.error er, diags ++ dd)
    | (.ok _, dd) => analyzeIndexExprs ctx rest (diags ++ dd)

/-- The body of the `Name::Indexed` arm after the prefix has been resolved
(`t` is the prefix's resolution triple). Shared with the
`Name::FunctionCall` arm, which rewrites the node in place to
`Name::Indexed` and re-dispatches through the walker: the re-dispatch is
inlined here so the recursion stays structural. A prefix panic propagates. -/
def indexedRest (ctx : Ctx) (name_pos prefixPos : Pos)
    (t : ROutcome × Name × List Diagnostic) (indexes : List Expression)
    (err_msg : String) : ROutcome × Name × List Diagnostic :=
  match t with
  | (.panicked m, p', d') => (.panicked m, .indexed prefixPos p' indexes, d')
  | (.ok (.objectSelection base_object type_mark), p', d') =>
    match ctx.analyze_indexed_name name_pos (p'.suffix_pos prefixPos) type_mark indexes with
    | (.error e, dd) => (.err e, .indexed prefixPos p' indexes, d' ++ dd)
    | (.ok elem_type, dd) =>
      (.ok (.objectSelection base_object elem_type), .indexed prefixPos p' indexes, d' ++ dd)
  | (_, p', d') =>
    match analyzeIndexExprs ctx indexes d' with
    | (.error e, d2) => (.err e, .indexed prefixPos p' indexes, d2)
    | (.ok _, d2) => (.err ⟨prefixPos, err_msg⟩, .indexed prefixPos p' indexes, d2)

/-- `AnalyzeContext::resolve_object_prefix`: the recursive walker. Returns
the outcome, the updated name AST (cross-reference cells rewritten; a
`FunctionCall` that matches an indexable shape rewritten to `Indexed`), and
the diagnostics sink's contents. -/
def resolve_object_prefix (ctx : Ctx) (name_pos : Pos) (name : Name)
    (err_msg : String) (diagnostics : List Diagnostic) :
    ROutcome × Name × List Diagnostic :=
  match name with
  | .selected prefixPos pfx suffix =>
    -- suffix.clear_reference() happens before the prefix is resolved
    match resolve_object_prefix ctx prefixPos pfx err_msg diagnostics with
    | (.err e, p', d') => (.err e, .selected prefixPos p' { suffix with reference := none }, d')
    | (.panicked m, p', d') =>
      (.panicked m, .selected prefixPos p' { suffix with reference := none }, d')
    | (.ok resolved, p', d') =>
      match resolved with
      | .nonObject ent =>
        match ctx.lookup_selected prefixPos ent suffix.pos suffix.des with
        | .error e => (.err e, .selected prefixPos p' { suffix with reference := none }, d')
        | .ok (.single ne) =>
          match (ResolvedName.nonObject ent).with_suffix ctx.debug_assertions ne with
          | .ok r => (.ok r, .selected prefixPos p' { suffix with reference := some ne.id }, d')
          | .err msg =>
            (.err ⟨name_pos, msg⟩,
              .selected prefixPos p' { suffix with reference := some ne.id }, d')
          | .panicked m =>
            (.panicked m, .selected prefixPos p' { suffix with reference := some ne.id }, d')
        | .ok (.overloaded ov) =>
          (.ok (.overloaded ov), .selected prefixPos p' { suffix with reference := none }, d')
      | .typeName _ =>
        (.err ⟨name_pos, err_msg⟩, .selected prefixPos p' { suffix with reference := none }, d')
      | .objectSelection base_object type_mark =>
        match ctx.lookup_type_selected prefixPos type_mark suffix.pos suffix.des with
        | .error e => (.err e, .selected prefixPos p' { suffix with reference := none }, d')
        | .ok (.single ne) =>
          match (ResolvedName.objectSelection base_object type_mark).with_suffix
              ctx.debug_assertions ne with
          | .ok r => (.ok r, .selected prefixPos p' { suffix with reference := some ne.id }, d')
          | .err msg =>
            (.err ⟨name_pos, msg⟩,
              .selected prefixPos p' { suffix with reference := some ne.id }, d')
          | .panicked m =>
            (.panicked m, .selected prefixPos p' { suffix with reference := some ne.id }, d')
        | .ok (.overloaded _) =>
          (.err ⟨name_pos, err_msg⟩,
            .selected prefixPos p' { suffix with reference := none }, d')
      | .externalName objClass type_mark =>
        match ctx.lookup_type_selected prefixPos type_mark suffix.pos suffix.des with
        | .error e => (.err e, .selected prefixPos p' { suffix with reference := none }, d')
        | .ok (.single ne) =>
          match (ResolvedName.externalName objClass type_mark).with_suffix
              ctx.debug_assertions ne with
          | .ok r => (.ok r, .selected prefixPos p' { suffix with reference := some ne.id }, d')
          | .err msg =>
            (.err ⟨name_pos, msg⟩,
              .selected prefixPos p' { suffix with reference := some ne.id }, d')
          | .panicked m =>
            (.panicked m, .selected prefixPos p' { suffix with reference := some ne.id }, d')
        | .ok (.overloaded _) =>
          (.err ⟨name_pos, err_msg⟩,
            .selected prefixPos p' { suffix with reference := none }, d')
      | .overloaded _ =>
        (.err ⟨name_pos, err_msg⟩, .selected prefixPos p' { suffix with reference := none }, d')
  | .selectedAll prefixPos pfx =>
    match resolve_object_prefix ctx prefixPos pfx err_msg diagnostics with
    | (r, p', d') => (r, .selectedAll prefixPos p', d')
  | .designator des =>
    -- designator.clear_reference() happens before the lookup
    match ctx.lookup name_pos des.des with
    | .error e => (.err e, .designator { des with reference := none }, diagnostics)
    | .ok (.single ne) =>
      (.ok (ResolvedName.new ne), .designator { des with reference := some ne.id }, diagnostics)
    | .ok (.overloaded ov) =>
      (.ok (.overloaded ov), .designator { des with reference := none }, diagnostics)
  | .indexed prefixPos pfx indexes =>
    indexedRest ctx name_pos prefixPos
      ( resolve_object_prefix ctx prefixPos pfx err_msg diagnostics) indexes err_msg
  | .slice prefixPos pfx drange =>
    match resolve_object_prefix ctx prefixPos pfx err_msg diagnostics with
    | (.panicked m, p', d') => (.panicked m, .slice prefixPos p' drange, d')
    | (.ok (.objectSelection base_object type_mark), p', d') =>
      match ctx.analyze_sliced_name (p'.suffix_pos prefixPos) type_mark with
      | (.error e, dd) => (.err e, .slice prefixPos p' drange, d' ++ dd)
      | (.ok _, dd) =>
        match ctx.analyze_discrete_range drange with
        | (.error e, dd2) => (.err e, .slice prefixPos p' drange, d' ++ dd ++ dd2)
        | (.ok _, dd2) =>
          (.ok (.objectSelection base_object type_mark), .slice prefixPos p' drange,
            d' ++ dd ++ dd2)
    | (r, p', d') =>
      match ctx.analyze_discrete_range drange with
      | (.error e, dd2) => (.err e, .slice prefixPos p' drange, d' ++ dd2)
      | (.ok _, dd2) => (r, .slice prefixPos p' drange, d' ++ dd2)
  | .attributeName attr => (.err ⟨name_pos, err_msg⟩, .attributeName attr, diagnostics)
  | .functionCall prefixPos pfx params =>
    -- Modelled from the spec: `FunctionCall::to_indexed` is not under
    -- `src/`; per §4.3 it succeeds exactly when the call is a simple prefix
    -- plus a positional parenthesized argument list, in which case the node
    -- is rewritten in place to `Indexed(prefix, args)` and re-dispatched.
    if params.all (fun p => p.1.isNone) then
      indexedRest ctx name_pos prefixPos
        ( resolve_object_prefix ctx prefixPos pfx err_msg diagnostics)
        (params.map (fun p => p.2)) err_msg
    else
      (.err ⟨name_pos, err_msg⟩, .functionCall prefixPos pfx params, diagnostics)
  | .external subtype objClass =>
    match ctx.resolve_subtype_indication subtype with
    | (.error e, dd) => (.err e, .external subtype objClass, diagnostics ++ dd)
    | (.ok s, dd) =>
      (.ok (.externalName objClass s.type_mark), .external subtype objClass, diagnostics ++ dd)

/-! Concrete scopes and entities used to evaluate the definitions on
closed inputs. -/

/-- Test entity: a declared object, subtype's type mark 10, handle 1. -/
def objEnt : NamedEntity := ⟨1, .object ⟨10⟩, .object ⟨10⟩⟩

/-- Test entity: a declared type, handle 2. -/
def typeEntity : NamedEntity := ⟨2, .typeKind, .typeKind⟩

/-- Test entity: a record element, subtype's type mark 11, handle 3. -/
def elemEnt : NamedEntity := ⟨3, .elementDeclaration ⟨11⟩, .elementDeclaration ⟨11⟩⟩

/-- Test entity: an alias of object 1 with stored type mark 10, handle 4;
its alias-resolved kind is the aliased object's kind. -/
def aliasEnt : NamedEntity := ⟨4, .objectAlias 1 10, .object ⟨10⟩⟩

/-- Test entity: a declaration that is neither an object nor a type
(e.g. a package), handle 5. -/
def otherEnt : NamedEntity := ⟨5, .other, .other⟩

/-- A context whose scope knows nothing and whose analysis collaborators
succeed silently; the concrete contexts below override single fields. -/
def ctxBase : Ctx where
  debug_assertions := true
  lookup := fun pos _ => .error ⟨pos, "Unknown"⟩
  lookup_selected := fun _ _ pos _ => .error ⟨pos, "Unknown"⟩
  lookup_type_selected := fun _ _ pos _ => .error ⟨pos, "Unknown"⟩
  analyze_indexed_name := fun pos _ _ _ => (.error ⟨pos, "index analysis failed"⟩, [])
  analyze_expression := fun _ => (.ok (), [])
  analyze_sliced_name := fun _ _ => (.ok (), [])
  analyze_discrete_range := fun _ => (.ok (), [])
  resolve_subtype_indication := fun _ => (.error ⟨0, "subtype analysis failed"⟩, [])

/-- A context declaring object 1 under designator 0 and element 3 as a
field of every type. -/
def ctxObj : Ctx :=
  { ctxBase with
    lookup := fun pos d => if d = 0 then .ok (.single objEnt) else .error ⟨pos, "Unknown"⟩
    lookup_type_selected := fun _ _ pos d =>
      if d = 1 then .ok (.single elemEnt) else .error ⟨pos, "Unknown"⟩ }

/-- Test entity: a second declared object, subtype's type mark 12, handle 6. -/
def objEnt2 : NamedEntity := ⟨6, .object ⟨12⟩, .object ⟨12⟩⟩

/-! Claim theorems. -/

/-- C9: initial classification (`ResolvedName::new`) of an entity whose
kind is `ObjectAlias` produces an `ObjectSelection` whose `base_object` is
the alias's stored base object — the underlying aliased object, not the
alias entity itself — and whose `type_mark` is the alias's stored type
mark, so a chain rooted at an alias reports the aliased object's storage
identity as its base. -/
theorem C9_alias_classification (ent : NamedEntity) (base_object : ObjectEnt)
    (type_mark : TypeEnt) (h : ent.kind = .objectAlias base_object type_mark) :
    ResolvedName.new ent = .objectSelection base_object type_mark := by
  simp [ResolvedName.new, h]

/-- C9 witness: the alias entity with handle 4 aliasing object 1 classifies
to base object 1, which is not the alias's own handle. -/
theorem C9_alias_classification_witness :
    aliasEnt.kind = .objectAlias 1 10 ∧
      ResolvedName.new aliasEnt = .objectSelection 1 10 ∧ aliasEnt.id ≠ 1 :=
  ⟨by decide, C9_alias_classification aliasEnt 1 10 (by decide), by decide⟩

/-- C5 counterexample: the claim says both internal invariant violations
panic in every build configuration, but with debug assertions disabled (a
release build) an `Object` suffix arriving while the state is
`ObjectSelection` — not `NonObject` — does not panic: `with_suffix`
returns `Ok`, silently reclassifying the suffix. -/
theorem C5_counterexample :
    ResolvedName.with_suffix false (.objectSelection 1 10) objEnt2 =
      .ok (.objectSelection 6 12) := by decide

/-- C5 amended: the `Overloaded`-state violation is a fatal panic
(`unreachable!`) in every build configuration, but the object-suffix
violation is a `debug_assert!`: fatal exactly when debug assertions are
enabled; with them disabled, `with_suffix` returns
`Ok(ResolvedName::new(suffix))` — neither a panic nor a user diagnostic. -/
theorem C5_invariant_violations :
    (∀ (self : ResolvedName) (ent : NamedEntity) (st : Subtype),
        ent.kind = .object st → self.isNonObject = false →
        ResolvedName.with_suffix true self ent = .panicked assertMsg ∧
          ResolvedName.with_suffix false self ent = .ok (ResolvedName.new ent)) ∧
      (∀ (self : ResolvedName) (ent : NamedEntity) (b : ObjectEnt) (t : TypeEnt),
        ent.kind = .objectAlias b t → self.isNonObject = false →
        ResolvedName.with_suffix true self ent = .panicked assertMsg ∧
          ResolvedName.with_suffix false self ent = .ok (ResolvedName.new ent)) ∧
      (∀ (dbg : Bool) (ov : OverloadedName) (ent : NamedEntity),
        (∀ st, ent.kind ≠ .object st) → (∀ b t, ent.kind ≠ .objectAlias b t) →
        ResolvedName.with_suffix dbg (.overloaded ov) ent = .panicked unreachableMsg) := by
  refine ⟨?_, ?_, ?_⟩
  · intro self ent st h hn
    constructor <;> simp [ResolvedName.with_suffix, h, hn]
  · intro self ent b t h hn
    constructor <;> simp [ResolvedName.with_suffix, h, hn]
  · intro dbg ov ent h1 h2
    cases hk : ent.kind
    case object st => exact absurd hk (h1 st)
    case objectAlias b t => exact absurd hk (h2 b t)
    all_goals simp [ResolvedName.with_suffix, hk]

/-- C5 witness: with debug assertions on, an object suffix on a `Type`
state panics, and a transition from the `Overloaded` state panics. -/
theorem C5_invariant_violations_witness :
    objEnt.kind = .object ⟨10⟩ ∧ (ResolvedName.typeName 2).isNonObject = false ∧
      ResolvedName.with_suffix true (.typeName 2) objEnt = .panicked assertMsg ∧
      ResolvedName.with_suffix true (.overloaded [7, 8]) elemEnt = .panicked unreachableMsg :=
  ⟨by decide, by decide,
    (C5_invariant_violations.1 (.typeName 2) objEnt ⟨10⟩ (by decide) (by decide)).1,
    C5_invariant_violations.2.2 true [7, 8] elemEnt
      (fun st h => by simp [elemEnt] at h) (fun b t h => by simp [elemEnt] at h)⟩

/-- C1: field access, indexing and slicing narrow `type_mark` but never
change `base_object`: the suffix transition on an `ObjectSelection` state
with an `ElementDeclaration` suffix, and the `Indexed` branch of the
walker, change only `type_mark` and never `base_object`, and the `Slice`
branch changes neither, so a resolution that stays within these steps keeps
the root object as its `base_object` throughout. -/
theorem C1_base_object_invariant :
    (∀ (dbg : Bool) (base_object : ObjectEnt) (type_mark : TypeEnt)
        (ent : NamedEntity) (st : Subtype),
        (∀ s, ent.kind ≠ .object s) → (∀ b t, ent.kind ≠ .objectAlias b t) →
        ent.actual_kind = .elementDeclaration st →
        ResolvedName.with_suffix dbg (.objectSelection base_object type_mark) ent =
          .ok (.objectSelection base_object st.type_mark)) ∧
      (∀ (ctx : Ctx) (np pp : Pos) (p p' : Name) (idxs : List Expression) (em : String)
        (d d1 dd : List Diagnostic) (base_object : ObjectEnt) (type_mark elem : TypeEnt),
        resolve_object_prefix ctx pp p em d = (.ok (.objectSelection base_object type_mark), p', d1) →
        ctx.analyze_indexed_name np (p'.suffix_pos pp) type_mark idxs = (.ok elem, dd) →
        resolve_object_prefix ctx np (.indexed pp p idxs) em d =
          (.ok (.objectSelection base_object elem), .indexed pp p' idxs, d1 ++ dd)) ∧
      (∀ (ctx : Ctx) (np pp : Pos) (p p' : Name) (dr : DiscreteRange) (em : String)
        (d d1 dd dd2 : List Diagnostic) (base_object : ObjectEnt) (type_mark : TypeEnt),
        resolve_object_prefix ctx pp p em d = (.ok (.objectSelection base_object type_mark), p', d1) →
        ctx.analyze_sliced_name (p'.suffix_pos pp) type_mark = (.ok (), dd) →
        ctx.analyze_discrete_range dr = (.ok (), dd2) →
        resolve_object_prefix ctx np (.slice pp p dr) em d =
          (.ok (.objectSelection base_object type_mark), .slice pp p' dr, d1 ++ dd ++ dd2)) := by
  refine ⟨?_, ?_, ?_⟩
  · intro dbg base_object type_mark ent st h1 h2 hact
    cases hk : ent.kind
    case object s => exact absurd hk (h1 s)
    case objectAlias b t => exact absurd hk (h2 b t)
    all_goals simp [ResolvedName.with_suffix, hk, hact]
  · intro ctx np pp p p' idxs em d d1 dd base_object type_mark elem hpre hidx
    simp only [ resolve_object_prefix]
    rw [hpre]
    simp [indexedRest, hidx]
  · intro ctx np pp p p' dr em d d1 dd dd2 base_object type_mark hpre hsl hdr
    simp only [ resolve_object_prefix]
    rw [hpre]
    simp [hsl, hdr]

/-- C1 witness: resolving `r.f(i)(a to b)` pieces on the concrete scope:
indexing object 1 (type mark 10) yields element type 20 with the base
object unchanged, and slicing it changes nothing. -/
theorem C1_base_object_invariant_witness :
    resolve_object_prefix
        { ctxObj with analyze_indexed_name := fun _ _ _ _ => (.ok 20, []) } 9
        (.indexed 1 (.designator ⟨0, 1, none⟩) [42]) "em" [] =
      (.ok (.objectSelection 1 20), .indexed 1 (.designator ⟨0, 1, some 1⟩) [42], []) :=
  C1_base_object_invariant.2.1
    { ctxObj with analyze_indexed_name := fun _ _ _ _ => (.ok 20, []) }
    9 1 (.designator ⟨0, 1, none⟩) (.designator ⟨0, 1, some 1⟩) [42] "em" [] [] []
    1 10 20 (by decide) rfl

/-- A context declaring the type with handle 2 under designator 0. -/
def ctxType : Ctx :=
  { ctxBase with
    lookup := fun pos d =>
      if d = 0 then .ok (.single typeEntity) else .error ⟨pos, "Unknown"⟩ }

/-- C2 counterexample: `T.x` with `T` a type fails, but with the
caller-supplied `err_msg` at the whole name's position — not with the
specific "Type may not be the prefix of a selected name" message the claim
names (that message lives only in `with_suffix`, which is never invoked
from a `Type` prefix state). -/
theorem C2_counterexample :
    resolve_object_prefix ctxType 0
        (.selected 1 (.designator ⟨0, 1, none⟩) ⟨7, 2, some 99⟩)
        "does not denote an object" [] =
      (.err ⟨0, "does not denote an object"⟩,
        .selected 1 (.designator ⟨0, 1, some 2⟩) ⟨7, 2, none⟩, []) ∧
      "does not denote an object" ≠ "Type may not be the prefix of a selected name" := by
  constructor
  · decide
  · decide

/-- C2 amended: when the prefix of a selected name resolves to the `Type`
state, resolution fails immediately with the caller-supplied `err_msg` at
the name's position, for every suffix and every scope — so no suffix
lookup is performed and the outcome is independent of whether the suffix
exists; the `TypeAsPrefix` message is not the one produced. -/
theorem C2_type_prefix (ctx : Ctx) (np pp : Pos) (p p' : Name) (s : SuffixDes)
    (em : String) (d d1 : List Diagnostic) (tm : TypeEnt)
    (hpre : resolve_object_prefix ctx pp p em d = (.ok (.typeName tm), p', d1)) :
    resolve_object_prefix ctx np (.selected pp p s) em d =
      (.err ⟨np, em⟩, .selected pp p' { s with reference := none }, d1) := by
  simp only [ resolve_object_prefix]
  rw [hpre]

/-- C2 witness: the amended behaviour on the concrete scope, with a suffix
designator (7) that no scope declares and a stale cross-reference. -/
theorem C2_type_prefix_witness :
    resolve_object_prefix ctxType 0
        (.selected 1 (.designator ⟨0, 1, none⟩) ⟨7, 2, some 99⟩) "no object" [] =
      (.err ⟨0, "no object"⟩, .selected 1 (.designator ⟨0, 1, some 2⟩) ⟨7, 2, none⟩, []) :=
  C2_type_prefix ctxType 0 1 (.designator ⟨0, 1, none⟩) (.designator ⟨0, 1, some 2⟩)
    ⟨7, 2, some 99⟩ "no object" [] [] 2 (by decide)

/-- C7: when a suffix lookup returns an overload set, a `NonObject` prefix
state makes the whole name resolve to `Overloaded(set)` — and a bare
overloaded designator resolves to `Overloaded(set)` — with zero
diagnostics emitted, while an `ObjectSelection` or `ExternalName` prefix
state makes resolution fail with `err_msg` instead of returning
`Overloaded`. -/
theorem C7_overloaded_lookup :
    (∀ (ctx : Ctx) (np : Pos) (des : SuffixDes) (em : String) (d : List Diagnostic)
        (ov : OverloadedName),
        ctx.lookup np des.des = .ok (.overloaded ov) →
        resolve_object_prefix ctx np (.designator des) em d =
          (.ok (.overloaded ov), .designator { des with reference := none }, d)) ∧
      (∀ (ctx : Ctx) (np pp : Pos) (p p' : Name) (s : SuffixDes) (em : String)
        (d d1 : List Diagnostic) (ent : NamedEntity) (ov : OverloadedName),
        resolve_object_prefix ctx pp p em d = (.ok (.nonObject ent), p', d1) →
        ctx.lookup_selected pp ent s.pos s.des = .ok (.overloaded ov) →
        resolve_object_prefix ctx np (.selected pp p s) em d =
          (.ok (.overloaded ov), .selected pp p' { s with reference := none }, d1)) ∧
      (∀ (ctx : Ctx) (np pp : Pos) (p p' : Name) (s : SuffixDes) (em : String)
        (d d1 : List Diagnostic) (base_object : ObjectEnt) (type_mark : TypeEnt)
        (ov : OverloadedName),
        resolve_object_prefix ctx pp p em d =
          (.ok (.objectSelection base_object type_mark), p', d1) →
        ctx.lookup_type_selected pp type_mark s.pos s.des = .ok (.overloaded ov) →
        resolve_object_prefix ctx np (.selected pp p s) em d =
          (.err ⟨np, em⟩, .selected pp p' { s with reference := none }, d1)) ∧
      (∀ (ctx : Ctx) (np pp : Pos) (p p' : Name) (s : SuffixDes) (em : String)
        (d d1 : List Diagnostic) (objClass : ExternalObjectClass) (type_mark : TypeEnt)
        (ov : OverloadedName),
        resolve_object_prefix ctx pp p em d =
          (.ok (.externalName objClass type_mark), p', d1) →
        ctx.lookup_type_selected pp type_mark s.pos s.des = .ok (.overloaded ov) →
        resolve_object_prefix ctx np (.selected pp p s) em d =
          (.err ⟨np, em⟩, .selected pp p' { s with reference := none }, d1)) := by
  refine ⟨?_, ?_, ?_, ?_⟩
  · intro ctx np des em d ov hl
    simp only [ resolve_object_prefix]
    rw [hl]
  · intro ctx np pp p p' s em d d1 ent ov hpre hl
    simp only [ resolve_object_prefix]
    rw [hpre]
    simp [hl]
  · intro ctx np pp p p' s em d d1 base_object type_mark ov hpre hl
    simp only [ resolve_object_prefix]
    rw [hpre]
    simp [hl]
  · intro ctx np pp p p' s em d d1 objClass type_mark ov hpre hl
    simp only [ resolve_object_prefix]
    rw [hpre]
    simp [hl]

/-- C7 witness: a bare designator naming overload set `[7, 8]` resolves to
`Overloaded` with the sink untouched, and `r.f` with `r` an object and `f`
an overload set fails with `err_msg`. -/
theorem C7_overloaded_lookup_witness :
    resolve_object_prefix
        { ctxBase with lookup := fun _ _ => .ok (.overloaded [7, 8]) } 0
        (.designator ⟨0, 0, some 99⟩) "em" [] =
      (.ok (.overloaded [7, 8]), .designator ⟨0, 0, none⟩, []) ∧
      resolve_object_prefix
          { ctxObj with lookup_type_selected := fun _ _ _ _ => .ok (.overloaded [7, 8]) } 0
          (.selected 1 (.designator ⟨0, 1, none⟩) ⟨1, 2, some 99⟩) "em" [] =
        (.err ⟨0, "em"⟩, .selected 1 (.designator ⟨0, 1, some 1⟩) ⟨1, 2, none⟩, []) :=
  ⟨C7_overloaded_lookup.1 _ 0 ⟨0, 0, some 99⟩ "em" [] [7, 8] rfl,
    C7_overloaded_lookup.2.2.1 _ 0 1 (.designator ⟨0, 1, none⟩) (.designator ⟨0, 1, some 1⟩)
      ⟨1, 2, some 99⟩ "em" [] [] 1 10 [7, 8] (by decide) rfl⟩

/-- C4: for a slice whose discrete-range analysis succeeds (and, when the
prefix resolved to an `ObjectSelection`, whose slice-analysis check also
succeeds), the walker returns exactly the prefix's own resolution result
unmodified: the same `ResolvedName` on success — `type_mark` unchanged by
slicing, non-object results such as `Type` or `Overloaded` passing through
without an `err_msg` rejection — and the prefix's original error on
failure. -/
theorem C4_slice_passthrough (ctx : Ctx) (np pp : Pos) (p p' : Name) (dr : DiscreteRange)
    (em : String) (d d1 dd2 : List Diagnostic) (r : ROutcome)
    (hpre : resolve_object_prefix ctx pp p em d = (r, p', d1))
    (hnp : ∀ m, r ≠ .panicked m)
    (hdr : ctx.analyze_discrete_range dr = (.ok (), dd2))
    (hsl : ∀ base_object type_mark, r = .ok (.objectSelection base_object type_mark) →
      (ctx.analyze_sliced_name (p'.suffix_pos pp) type_mark).1 = .ok ()) :
    ( resolve_object_prefix ctx np (.slice pp p dr) em d).1 = r := by
  simp only [ resolve_object_prefix]
  rw [hpre]
  match r, hnp with
  | .ok (.objectSelection base_object type_mark), _ =>
    have hs := hsl base_object type_mark rfl
    rcases hq : ctx.analyze_sliced_name (p'.suffix_pos pp) type_mark with ⟨sv, sdd⟩
    rw [hq] at hs
    simp at hs
    simp [hq, hs, hdr]
  | .ok (.nonObject ent), _ => simp [hdr]
  | .ok (.typeName tm), _ => simp [hdr]
  | .ok (.overloaded ov), _ => simp [hdr]
  | .ok (.externalName c tm), _ => simp [hdr]
  | .err e, _ => simp [hdr]
  | .panicked m, hnp => exact absurd rfl (hnp m)

/-- C4 witness: the prefix fails (undeclared designator), range analysis
succeeds, and the slice returns the prefix's original error unmodified. -/
theorem C4_slice_passthrough_witness :
    ( resolve_object_prefix ctxBase 0 (.slice 1 (.designator ⟨0, 1, none⟩) 0) "em" []).1 =
      .err ⟨1, "Unknown"⟩ :=
  C4_slice_passthrough ctxBase 0 1 (.designator ⟨0, 1, none⟩) (.designator ⟨0, 1, none⟩) 0
    "em" [] [] [] (.err ⟨1, "Unknown"⟩) (by decide) (fun m h => ROutcome.noConfusion h) rfl
    (fun b t h => ROutcome.noConfusion h)

/-- A context declaring object 1, whose slice-analysis check fails with a
marker diagnostic and whose range analysis succeeds with a marker
diagnostic. -/
def ctxSliceFail : Ctx :=
  { ctxObj with
    analyze_sliced_name := fun pos _ => (.error ⟨pos, "not array"⟩, [⟨pos, "slicecheck"⟩])
    analyze_discrete_range := fun _ => (.ok (), [⟨9, "range analyzed"⟩]) }

/-- C3 counterexample: the claim says the discrete range is analyzed
whether or not the slice-analysis check succeeded; but when the prefix
resolves to an `ObjectSelection` and the slice-analysis check fails, its
error is returned at once and the range is never analyzed — the range
collaborator's marker diagnostic is absent from the sink and the returned
error is the slice check's, not the range's. -/
theorem C3_counterexample :
    resolve_object_prefix ctxSliceFail 0 (.slice 1 (.designator ⟨0, 1, none⟩) 0) "em" [] =
      (.err ⟨1, "not array"⟩, .slice 1 (.designator ⟨0, 1, some 1⟩) 0,
        [⟨1, "slicecheck"⟩]) ∧
      (⟨9, "range analyzed"⟩ : Diagnostic) ∉ ([⟨1, "slicecheck"⟩] : List Diagnostic) := by
  constructor
  · decide
  · decide

/-- C3 amended: for a slice name, the discrete range is analyzed whether
the prefix resolution succeeded or failed, and a failure of the range
analysis is the error returned, replacing any earlier prefix error —
except that when the prefix resolved to an `ObjectSelection` and the
slice-analysis check on its `type_mark` fails, that check's error is
returned immediately and the range is not analyzed. The four conjuncts
cover every non-panic prefix outcome: a failed prefix, a successful prefix
in a non-`ObjectSelection` state, a successful `ObjectSelection` prefix
whose slice-analysis check passes, and the exceptional check-failure
case. -/
theorem C3_slice_range_analysis :
    (∀ (ctx : Ctx) (np pp : Pos) (p p' : Name) (dr : DiscreteRange) (em : String)
        (d d1 : List Diagnostic) (e : Diagnostic),
        resolve_object_prefix ctx pp p em d = (.err e, p', d1) →
        resolve_object_prefix ctx np (.slice pp p dr) em d =
          ((match (ctx.analyze_discrete_range dr).1 with
            | .error e2 => .err e2
            | .ok _ => .err e),
            .slice pp p' dr, d1 ++ (ctx.analyze_discrete_range dr).2)) ∧
      (∀ (ctx : Ctx) (np pp : Pos) (p p' : Name) (dr : DiscreteRange) (em : String)
        (d d1 : List Diagnostic) (rn : ResolvedName),
        resolve_object_prefix ctx pp p em d = (.ok rn, p', d1) →
        (∀ b t, rn ≠ .objectSelection b t) →
        resolve_object_prefix ctx np (.slice pp p dr) em d =
          ((match (ctx.analyze_discrete_range dr).1 with
            | .error e2 => .err e2
            | .ok _ => .ok rn),
            .slice pp p' dr, d1 ++ (ctx.analyze_discrete_range dr).2)) ∧
      (∀ (ctx : Ctx) (np pp : Pos) (p p' : Name) (dr : DiscreteRange) (em : String)
        (d d1 dd : List Diagnostic) (base_object : ObjectEnt) (type_mark : TypeEnt),
        resolve_object_prefix ctx pp p em d =
          (.ok (.objectSelection base_object type_mark), p', d1) →
        ctx.analyze_sliced_name (p'.suffix_pos pp) type_mark = (.ok (), dd) →
        resolve_object_prefix ctx np (.slice pp p dr) em d =
          ((match (ctx.analyze_discrete_range dr).1 with
            | .error e2 => .err e2
            | .ok _ => .ok (.objectSelection base_object type_mark)),
            .slice pp p' dr, d1 ++ dd ++ (ctx.analyze_discrete_range dr).2)) ∧
      (∀ (ctx : Ctx) (np pp : Pos) (p p' : Name) (dr : DiscreteRange) (em : String)
        (d d1 dd : List Diagnostic) (base_object : ObjectEnt) (type_mark : TypeEnt)
        (e2 : Diagnostic),
        resolve_object_prefix ctx pp p em d =
          (.ok (.objectSelection base_object type_mark), p', d1) →
        ctx.analyze_sliced_name (p'.suffix_pos pp) type_mark = (.error e2, dd) →
        resolve_object_prefix ctx np (.slice pp p dr) em d =
          (.err e2, .slice pp p' dr, d1 ++ dd)) := by
  refine ⟨?_, ?_, ?_, ?_⟩
  · intro ctx np pp p p' dr em d d1 e hpre
    simp only [ resolve_object_prefix]
    rw [hpre]
    rcases hq : ctx.analyze_discrete_range dr with ⟨rv, dd2⟩
    cases rv <;> simp [hq]
  · intro ctx np pp p p' dr em d d1 rn hpre hno
    simp only [ resolve_object_prefix]
    rw [hpre]
    rcases hq : ctx.analyze_discrete_range dr with ⟨rv, dd2⟩
    cases rn with
    | objectSelection b t => exact absurd rfl (hno b t)
    | nonObject ent => cases rv <;> simp [hq]
    | typeName tm => cases rv <;> simp [hq]
    | overloaded ov => cases rv <;> simp [hq]
    | externalName objClass t => cases rv <;> simp [hq]
  · intro ctx np pp p p' dr em d d1 dd base_object type_mark hpre hsl
    simp only [ resolve_object_prefix]
    rw [hpre]
    rcases hq : ctx.analyze_discrete_range dr with ⟨rv, dd2⟩
    cases rv <;> simp [hsl, hq]
  · intro ctx np pp p p' dr em d d1 dd base_object type_mark e2 hpre hsl
    simp only [ resolve_object_prefix]
    rw [hpre]
    simp [hsl]

/-- C3 witness: the prefix fails (undeclared designator) yet the range is
analyzed, and the range's own failure is the error returned in place of the
prefix's. -/
theorem C3_slice_range_analysis_witness :
    resolve_object_prefix
        { ctxBase with
          analyze_discrete_range := fun _ => (.error ⟨3, "bad range"⟩, [⟨3, "rngdiag"⟩]) } 0
        (.slice 1 (.designator ⟨0, 1, none⟩) 0) "em" [] =
      (.err ⟨3, "bad range"⟩, .slice 1 (.designator ⟨0, 1, none⟩) 0, [⟨3, "rngdiag"⟩]) :=
  C3_slice_range_analysis.1
    { ctxBase with
      analyze_discrete_range := fun _ => (.error ⟨3, "bad range"⟩, [⟨3, "rngdiag"⟩]) }
    0 1 (.designator ⟨0, 1, none⟩) (.designator ⟨0, 1, none⟩) 0 "em" [] []
    ⟨1, "Unknown"⟩ (by decide)

/-- The index-expression loop under the hypothesis that every index's
expression analysis succeeds: all indexes are analyzed, in order, and their
diagnostics all land in the sink. -/
theorem analyzeIndexExprs_all_ok (ctx : Ctx) (exprs : List Expression)
    (h : ∀ e ∈ exprs, (ctx.analyze_expression e).1 = .ok ()) (d : List Diagnostic) :
    analyzeIndexExprs ctx exprs d =
      (.ok (), d ++ exprs.flatMap (fun e => (ctx.analyze_expression e).2)) := by
  induction exprs generalizing d with
  | nil => simp [analyzeIndexExprs]
  | cons e rest ih =>
    have he := h e (by simp)
    rcases hq : ctx.analyze_expression e with ⟨rv, dd⟩
    rw [hq] at he
    simp only at he
    subst he
    rw [analyzeIndexExprs, hq]
    simp [ih (fun x hx => h x (List.mem_cons_of_mem e hx)), hq]

/-- C6: for an indexed name whose prefix does not resolve to an
`ObjectSelection` (the prefix failed, or resolved to
`Type`/`Overloaded`/`NonObject`/`ExternalName`), expression analysis still
runs over every index expression — their diagnostics all reach the sink —
and the call then fails with `err_msg` attached at the prefix's position. -/
theorem C6_indexed_diagnostic_completeness (ctx : Ctx) (np pp : Pos) (p p' : Name)
    (idxs : List Expression) (em : String) (d d1 : List Diagnostic) (r : ROutcome)
    (hpre : resolve_object_prefix ctx pp p em d = (r, p', d1))
    (hno : ∀ b t, r ≠ .ok (.objectSelection b t))
    (hnp : ∀ m, r ≠ .panicked m)
    (hok : ∀ e ∈ idxs, (ctx.analyze_expression e).1 = .ok ()) :
    resolve_object_prefix ctx np (.indexed pp p idxs) em d =
      (.err ⟨pp, em⟩, .indexed pp p' idxs,
        d1 ++ idxs.flatMap (fun e => (ctx.analyze_expression e).2)) := by
  simp only [ resolve_object_prefix]
  rw [hpre]
  match r, hno, hnp with
  | .ok (.objectSelection b t), hno, _ => exact absurd rfl (hno b t)
  | .panicked m, _, hnp => exact absurd rfl (hnp m)
  | .ok (.nonObject ent), _, _ =>
    simp [indexedRest, analyzeIndexExprs_all_ok ctx idxs hok]
  | .ok (.typeName tm), _, _ =>
    simp [indexedRest, analyzeIndexExprs_all_ok ctx idxs hok]
  | .ok (.overloaded ov), _, _ =>
    simp [indexedRest, analyzeIndexExprs_all_ok ctx idxs hok]
  | .ok (.externalName c tm), _, _ =>
    simp [indexedRest, analyzeIndexExprs_all_ok ctx idxs hok]
  | .err e, _, _ =>
    simp [indexedRest, analyzeIndexExprs_all_ok ctx idxs hok]

/-- C6 witness: `bad_name(i + 1)` with `bad_name` undeclared and `i`
undeclared inside the index: the index expression's diagnostic reaches the
sink and the one failing result carries `err_msg` at the prefix's
position — two diagnostics, one failing `Result`. -/
theorem C6_indexed_diagnostic_completeness_witness :
    resolve_object_prefix
        { ctxBase with
          analyze_expression := fun _ => (.ok (), [⟨4, "No declaration of i"⟩]) } 0
        (.indexed 1 (.designator ⟨0, 1, none⟩) [100]) "em" [] =
      (.err ⟨1, "em"⟩, .indexed 1 (.designator ⟨0, 1, none⟩) [100],
        [⟨4, "No declaration of i"⟩]) :=
  C6_indexed_diagnostic_completeness
    { ctxBase with analyze_expression := fun _ => (.ok (), [⟨4, "No declaration of i"⟩]) }
    0 1 (.designator ⟨0, 1, none⟩) (.designator ⟨0, 1, none⟩) [100] "em" [] []
    (.err ⟨1, "Unknown"⟩) (by decide) (fun b t h => ROutcome.noConfusion h)
    (fun m h => ROutcome.noConfusion h) (fun e he => rfl)

/-- The suffix lookup that the `Selected` arm performs for a given resolved
prefix state, when it performs one and it finds a single entity:
`NonObject` prefixes go through `lookup_selected`, `ObjectSelection` and
`ExternalName` prefixes through `lookup_type_selected` on their
`type_mark`. -/
def suffixLookupSingle (ctx : Ctx) (pp : Pos) (r : ROutcome) (s : SuffixDes)
    (ne : NamedEntity) : Prop :=
  (∃ ent, r = .ok (.nonObject ent) ∧
      ctx.lookup_selected pp ent s.pos s.des = .ok (.single ne)) ∨
    (∃ base_object type_mark, r = .ok (.objectSelection base_object type_mark) ∧
      ctx.lookup_type_selected pp type_mark s.pos s.des = .ok (.single ne)) ∨
    (∃ objClass type_mark, r = .ok (.externalName objClass type_mark) ∧
      ctx.lookup_type_selected pp type_mark s.pos s.des = .ok (.single ne))

/-- C10: the cross-reference cells the walker touches never keep a stale
value. A bare designator's cell is cleared before its lookup and, in the
output, holds `none` or the single entity that lookup found. A selected
name's suffix cell is cleared before the prefix is recursively resolved
and, in the output, holds `none` or the single entity this call's suffix
lookup found — for every input cell content, so on every outcome,
including every error, nothing stale survives at the cells this call
writes. In particular, when the prefix resolution fails the suffix cell is
already cleared (third conjunct). -/
theorem C10_reference_cells :
    (∀ (ctx : Ctx) (np : Pos) (des : SuffixDes) (em : String) (d : List Diagnostic),
        ∃ ref, ( resolve_object_prefix ctx np (.designator des) em d).2.1 =
            .designator ⟨des.des, des.pos, ref⟩ ∧
          (ref = none ∨
            ∃ ne, ctx.lookup np des.des = .ok (.single ne) ∧ ref = some ne.id)) ∧
      (∀ (ctx : Ctx) (np pp : Pos) (p : Name) (s : SuffixDes) (em : String)
        (d : List Diagnostic),
        ∃ p₁ ref, ( resolve_object_prefix ctx np (.selected pp p s) em d).2.1 =
            .selected pp p₁ ⟨s.des, s.pos, ref⟩ ∧
          (ref = none ∨ ∃ ne, ref = some ne.id ∧
            suffixLookupSingle ctx pp ( resolve_object_prefix ctx pp p em d).1 s ne)) ∧
      (∀ (ctx : Ctx) (np pp : Pos) (p : Name) (s : SuffixDes) (em : String)
        (d : List Diagnostic) (e : Diagnostic),
        ( resolve_object_prefix ctx pp p em d).1 = .err e →
        ( resolve_object_prefix ctx np (.selected pp p s) em d).2.1 =
          .selected pp ( resolve_object_prefix ctx pp p em d).2.1 ⟨s.des, s.pos, none⟩) := by
  refine ⟨?_, ?_, ?_⟩
  · intro ctx np des em d
    rcases hl : ctx.lookup np des.des with e | nes
    · exact ⟨none, by simp [ resolve_object_prefix, hl], Or.inl rfl⟩
    · cases nes with
      | single ne =>
        exact ⟨some ne.id, by simp [ resolve_object_prefix, hl], Or.inr ⟨ne, rfl, rfl⟩⟩
      | overloaded ov => exact ⟨none, by simp [ resolve_object_prefix, hl], Or.inl rfl⟩
  · intro ctx np pp p s em d
    rcases hp : resolve_object_prefix ctx pp p em d with ⟨r, p1, dd⟩
    simp only [ resolve_object_prefix, hp]
    match r with
    | .err e => exact ⟨p1, none, rfl, Or.inl rfl⟩
    | .panicked m => exact ⟨p1, none, rfl, Or.inl rfl⟩
    | .ok (.typeName tm) => exact ⟨p1, none, rfl, Or.inl rfl⟩
    | .ok (.overloaded ov) => exact ⟨p1, none, rfl, Or.inl rfl⟩
    | .ok (.nonObject ent) =>
      rcases hl : ctx.lookup_selected pp ent s.pos s.des with e2 | nes
      · exact ⟨p1, none, by simp [hl], Or.inl rfl⟩
      · cases nes with
        | overloaded ov => exact ⟨p1, none, by simp [hl], Or.inl rfl⟩
        | single ne =>
          rcases hw : (ResolvedName.nonObject ent).with_suffix ctx.debug_assertions ne
            with r2 | msg | m
          · exact ⟨p1, some ne.id, by simp [hl, hw],
              Or.inr ⟨ne, rfl, Or.inl ⟨ent, rfl, hl⟩⟩⟩
          · exact ⟨p1, some ne.id, by simp [hl, hw],
              Or.inr ⟨ne, rfl, Or.inl ⟨ent, rfl, hl⟩⟩⟩
          · exact ⟨p1, some ne.id, by simp [hl, hw],
              Or.inr ⟨ne, rfl, Or.inl ⟨ent, rfl, hl⟩⟩⟩
    | .ok (.objectSelection base_object type_mark) =>
      rcases hl : ctx.lookup_type_selected pp type_mark s.pos s.des with e2 | nes
      · exact ⟨p1, none, by simp [hl], Or.inl rfl⟩
      · cases nes with
        | overloaded ov => exact ⟨p1, none, by simp [hl], Or.inl rfl⟩
        | single ne =>
          rcases hw : (ResolvedName.objectSelection base_object type_mark).with_suffix
              ctx.debug_assertions ne with r2 | msg | m
          · exact ⟨p1, some ne.id, by simp [hl, hw],
              Or.inr ⟨ne, rfl, Or.inr (Or.inl ⟨base_object, type_mark, rfl, hl⟩)⟩⟩
          · exact ⟨p1, some ne.id, by simp [hl, hw],
              Or.inr ⟨ne, rfl, Or.inr (Or.inl ⟨base_object, type_mark, rfl, hl⟩)⟩⟩
          · exact ⟨p1, some ne.id, by simp [hl, hw],
              Or.inr ⟨ne, rfl, Or.inr (Or.inl ⟨base_object, type_mark, rfl, hl⟩)⟩⟩
    | .ok (.externalName objClass type_mark) =>
      rcases hl : ctx.lookup_type_selected pp type_mark s.pos s.des with e2 | nes
      · exact ⟨p1, none, by simp [hl], Or.inl rfl⟩
      · cases nes with
        | overloaded ov => exact ⟨p1, none, by simp [hl], Or.inl rfl⟩
        | single ne =>
          rcases hw : (ResolvedName.externalName objClass type_mark).with_suffix
              ctx.debug_assertions ne with r2 | msg | m
          · exact ⟨p1, some ne.id, by simp [hl, hw],
              Or.inr ⟨ne, rfl, Or.inr (Or.inr ⟨objClass, type_mark, rfl, hl⟩)⟩⟩
          · exact ⟨p1, some ne.id, by simp [hl, hw],
              Or.inr ⟨ne, rfl, Or.inr (Or.inr ⟨objClass, type_mark, rfl, hl⟩)⟩⟩
          · exact ⟨p1, some ne.id, by simp [hl, hw],
              Or.inr ⟨ne, rfl, Or.inr (Or.inr ⟨objClass, type_mark, rfl, hl⟩)⟩⟩
  · intro ctx np pp p s em d e he
    rcases hp : resolve_object_prefix ctx pp p em d with ⟨r, p1, dd⟩
    rw [hp] at he
    simp only at he
    subst he
    simp [ resolve_object_prefix, hp]

/-- C10 witness: with an undeclared prefix, the selected name's suffix cell
— holding the stale value 99 on input — is cleared in the output even
though resolution fails inside the prefix. -/
theorem C10_reference_cells_witness :
    ( resolve_object_prefix ctxBase 0
        (.selected 1 (.designator ⟨0, 1, none⟩) ⟨7, 2, some 99⟩) "em" []).2.1 =
      .selected 1 (.designator ⟨0, 1, none⟩) ⟨7, 2, none⟩ :=
  C10_reference_cells.2.2 ctxBase 0 1 (.designator ⟨0, 1, none⟩) ⟨7, 2, some 99⟩ "em" []
    ⟨1, "Unknown"⟩ rfl

/-- The index-expression loop only appends to the sink: its outcome and the
diagnostics it emits are independent of the sink's prior contents. -/
theorem analyzeIndexExprs_append (ctx : Ctx) (exprs : List Expression)
    (d1 d2 : List Diagnostic) :
    analyzeIndexExprs ctx exprs (d1 ++ d2) =
      ((analyzeIndexExprs ctx exprs d2).1, d1 ++ (analyzeIndexExprs ctx exprs d2).2) := by
  induction exprs generalizing d2 with
  | nil => simp [analyzeIndexExprs]
  | cons e rest ih =>
    rcases hq : ctx.analyze_expression e with ⟨rv, dd⟩
    cases rv with
    | error er => simp [analyzeIndexExprs, hq, List.append_assoc]
    | ok u =>
      simp only [analyzeIndexExprs, hq]
      rw [List.append_assoc]
      exact ih (d2 ++ dd)

/-- The indexed-name continuation only appends to the sink: its outcome,
output name and emitted diagnostics are independent of the sink's prior
contents. -/
theorem indexedRest_append (ctx : Ctx) (np pp : Pos) (r : ROutcome) (p' : Name)
    (d1 δ : List Diagnostic) (idxs : List Expression) (em : String) :
    indexedRest ctx np pp (r, p', d1 ++ δ) idxs em =
      ((indexedRest ctx np pp (r, p', δ) idxs em).1,
        (indexedRest ctx np pp (r, p', δ) idxs em).2.1,
        d1 ++ (indexedRest ctx np pp (r, p', δ) idxs em).2.2) := by
  have hA := analyzeIndexExprs_append ctx idxs d1 δ
  rcases hq : analyzeIndexExprs ctx idxs δ with ⟨rv, dd⟩
  rw [hq] at hA
  match r with
  | .panicked m => simp [indexedRest]
  | .ok (.objectSelection b t) =>
    rcases hx : ctx.analyze_indexed_name np (p'.suffix_pos pp) t idxs with ⟨xv, xdd⟩
    cases xv <;> simp [indexedRest, hx, List.append_assoc]
  | .ok (.nonObject ent) => cases rv <;> simp [indexedRest, hA, hq]
  | .ok (.typeName tm) => cases rv <;> simp [indexedRest, hA, hq]
  | .ok (.overloaded ov) => cases rv <;> simp [indexedRest, hA, hq]
  | .ok (.externalName c t) => cases rv <;> simp [indexedRest, hA, hq]
  | .err e => cases rv <;> simp [indexedRest, hA, hq]

/-- C8: resolution is deterministic and the diagnostics sink is
append-only — the outcome and the rewritten name are functions of the
scope/collaborators, position, name and error message alone, independent of
the sink's prior contents, and the diagnostics emitted are exactly the run
of the same call on an empty sink. Hence resolving the same unmodified name
tree twice, each time on a fresh identical copy with a fresh sink, yields
identical results and identical diagnostic sets. -/
theorem C8_deterministic (ctx : Ctx) (np : Pos) (name : Name) (em : String)
    (d : List Diagnostic) :
    resolve_object_prefix ctx np name em d =
      (( resolve_object_prefix ctx np name em []).1,
        ( resolve_object_prefix ctx np name em []).2.1,
        d ++ ( resolve_object_prefix ctx np name em []).2.2) := by
  induction name generalizing np d with
  | designator des =>
    rcases hl : ctx.lookup np des.des with e | nes
    · simp [ resolve_object_prefix, hl]
    · cases nes <;> simp [ resolve_object_prefix, hl]
  | selectedAll pp pfx ih =>
    rcases h0 : resolve_object_prefix ctx pp pfx em [] with ⟨r0, p0, δ0⟩
    have h1 : resolve_object_prefix ctx pp pfx em d = (r0, p0, d ++ δ0) := by
      rw [ih pp d, h0]
    simp [ resolve_object_prefix, h0, h1]
  | selected pp pfx s ih =>
    rcases h0 : resolve_object_prefix ctx pp pfx em [] with ⟨r0, p0, δ0⟩
    have h1 : resolve_object_prefix ctx pp pfx em d = (r0, p0, d ++ δ0) := by
      rw [ih pp d, h0]
    simp only [ resolve_object_prefix, h0, h1]
    cases r0 with
    | err e => simp
    | panicked m => simp
    | ok resolved =>
      cases resolved with
      | typeName tm => simp
      | overloaded ov => simp
      | nonObject ent =>
        rcases hl : ctx.lookup_selected pp ent s.pos s.des with e2 | nes
        · simp [hl]
        · cases nes with
          | overloaded ov => simp [hl]
          | single ne =>
            rcases hw : (ResolvedName.nonObject ent).with_suffix ctx.debug_assertions ne
              with r2 | msg | m <;> simp [hl, hw]
      | objectSelection base_object type_mark =>
        rcases hl : ctx.lookup_type_selected pp type_mark s.pos s.des with e2 | nes
        · simp [hl]
        · cases nes with
          | overloaded ov => simp [hl]
          | single ne =>
            rcases hw : (ResolvedName.objectSelection base_object type_mark).with_suffix
              ctx.debug_assertions ne with r2 | msg | m <;> simp [hl, hw]
      | externalName objClass type_mark =>
        rcases hl : ctx.lookup_type_selected pp type_mark s.pos s.des with e2 | nes
        · simp [hl]
        · cases nes with
          | overloaded ov => simp [hl]
          | single ne =>
            rcases hw : (ResolvedName.externalName objClass type_mark).with_suffix
              ctx.debug_assertions ne with r2 | msg | m <;> simp [hl, hw]
  | indexed pp pfx idxs ih =>
    rcases h0 : resolve_object_prefix ctx pp pfx em [] with ⟨r0, p0, δ0⟩
    have h1 : resolve_object_prefix ctx pp pfx em d = (r0, p0, d ++ δ0) := by
      rw [ih pp d, h0]
    simp only [ resolve_object_prefix, h0, h1]
    exact indexedRest_append ctx np pp r0 p0 d δ0 idxs em
  | slice pp pfx dr ih =>
    rcases h0 : resolve_object_prefix ctx pp pfx em [] with ⟨r0, p0, δ0⟩
    have h1 : resolve_object_prefix ctx pp pfx em d = (r0, p0, d ++ δ0) := by
      rw [ih pp d, h0]
    simp only [ resolve_object_prefix, h0, h1]
    cases r0 with
    | panicked m => simp
    | err e =>
      rcases hdr : ctx.analyze_discrete_range dr with ⟨rv, dd2⟩
      cases rv <;> simp [hdr, List.append_assoc]
    | ok resolved =>
      cases resolved with
      | objectSelection base_object type_mark =>
        rcases hsl : ctx.analyze_sliced_name (p0.suffix_pos pp) type_mark with ⟨sv, sdd⟩
        cases sv with
        | error e2 => simp [hsl, List.append_assoc]
        | ok u =>
          rcases hdr : ctx.analyze_discrete_range dr with ⟨rv, dd2⟩
          cases rv <;> simp [hsl, hdr, List.append_assoc]
      | nonObject ent =>
        rcases hdr : ctx.analyze_discrete_range dr with ⟨rv, dd2⟩
        cases rv <;> simp [hdr, List.append_assoc]
      | typeName tm =>
        rcases hdr : ctx.analyze_discrete_range dr with ⟨rv, dd2⟩
        cases rv <;> simp [hdr, List.append_assoc]
      | overloaded ov =>
        rcases hdr : ctx.analyze_discrete_range dr with ⟨rv, dd2⟩
        cases rv <;> simp [hdr, List.append_assoc]
      | externalName objClass type_mark =>
        rcases hdr : ctx.analyze_discrete_range dr with ⟨rv, dd2⟩
        cases rv <;> simp [hdr, List.append_assoc]
  | attributeName attr => simp [ resolve_object_prefix]
  | functionCall pp pfx params ih =>
    by_cases hc : params.all (fun p => p.1.isNone)
    · rcases h0 : resolve_object_prefix ctx pp pfx em [] with ⟨r0, p0, δ0⟩
      have h1 : resolve_object_prefix ctx pp pfx em d = (r0, p0, d ++ δ0) := by
        rw [ih pp d, h0]
      simp only [ resolve_object_prefix, hc, if_true, h0, h1]
      exact indexedRest_append ctx np pp r0 p0 d δ0 (params.map (fun p => p.2)) em
    · simp [ resolve_object_prefix, hc]
  | external st objClass =>
    rcases hs : ctx.resolve_subtype_indication st with ⟨rv, dd⟩
    cases rv <;> simp [ resolve_object_prefix, hs]

end VhdlNames
